import Mathlib

/-!
Verification development for the astarte-go repository.

Part 1 models the interface definition parser and validator
(package `interfaces`): a JSON document describing an Astarte
interface is decoded into an intermediate raw record and then
validated into a strongly typed `AstarteInterface` value, or
rejected with a typed error.  Part 2 models the enum and
aggregate-value JSON unmarshalling of package `client`
(`api_types.go`), and Part 3 the realm-management request
builders.
-/

set_option maxRecDepth 4096

/-- A JSON value, the input domain of the decoder.  Numbers are
modelled as integers: every numeric field of the wire format
(`version_major`, `version_minor`, `database_retention_ttl`) is
integral. -/
inductive Json where
  | null : Json
  | bool (b : Bool) : Json
  | num (n : Int) : Json
  | str (s : String) : Json
  | arr (xs : List Json) : Json
  | obj (fields : List (String × Json)) : Json

/-- Whether a JSON value is a string. -/
def Json.isStr : Json → Bool
  | .str _ => true
  | _ => false

/-- Whether a JSON value is a number. -/
def Json.isNum : Json → Bool
  | .num _ => true
  | _ => false

namespace Interfaces

/-- Modelled from the spec: interface `type` token set {datastream, properties}. -/
inductive InterfaceType where
  | datastream : InterfaceType
  | properties : InterfaceType
deriving DecidableEq, Repr

/-- Modelled from the spec: `ownership` token set {device, server}. -/
inductive Ownership where
  | device : Ownership
  | server : Ownership
deriving DecidableEq, Repr

/-- Modelled from the spec: `aggregation` token set {individual, object}. -/
inductive AggregationType where
  | individual : AggregationType
  | object : AggregationType
deriving DecidableEq, Repr

/-- Modelled from the spec: mapping `type` token set, six base types and
their array variants. -/
inductive MappingType where
  | string : MappingType
  | integer : MappingType
  | double : MappingType
  | boolean : MappingType
  | binaryblob : MappingType
  | datetime : MappingType
  | stringarray : MappingType
  | integerarray : MappingType
  | doublearray : MappingType
  | booleanarray : MappingType
  | binaryblobarray : MappingType
  | datetimearray : MappingType
deriving DecidableEq, Repr

/-- Modelled from the spec: `retention` token set {discard, volatile, stored}. -/
inductive Retention where
  | discard : Retention
  | volatile : Retention
  | stored : Retention
deriving DecidableEq, Repr

/-- Modelled from the spec: `reliability` token set {unreliable, guaranteed, unique}. -/
inductive Reliability where
  | unreliable : Reliability
  | guaranteed : Reliability
  | unique : Reliability
deriving DecidableEq, Repr

/-- Modelled from the spec: `database_retention_policy` token set {no_ttl, use_ttl}. -/
inductive DatabaseRetentionPolicy where
  | noTtl : DatabaseRetentionPolicy
  | useTtl : DatabaseRetentionPolicy
deriving DecidableEq, Repr

def interfaceTypeFromString : String → Option InterfaceType :=
fun s =>
  if s = "datastream" then some .datastream
  else if s = "properties" then some .properties
  else none

def interfaceTypeToString : InterfaceType → String
  | .datastream => "datastream"
  | .properties => "properties"

def ownershipFromString : String → Option Ownership :=
fun s =>
  if s = "device" then some .device
  else if s = "server" then some .server
  else none

def ownershipToString : Ownership → String
  | .device => "device"
  | .server => "server"

def aggregationFromString : String → Option AggregationType :=
fun s =>
  if s = "individual" then some .individual
  else if s = "object" then some .object
  else none

def aggregationToString : AggregationType → String
  | .individual => "individual"
  | .object => "object"

def mappingTypeFromString : String → Option MappingType :=
fun s =>
  if s = "string" then some .string
  else if s = "integer" then some .integer
  else if s = "double" then some .double
  else if s = "boolean" then some .boolean
  else if s = "binaryblob" then some .binaryblob
  else if s = "datetime" then some .datetime
  else if s = "stringarray" then some .stringarray
  else if s = "integerarray" then some .integerarray
  else if s = "doublearray" then some .doublearray
  else if s = "booleanarray" then some .booleanarray
  else if s = "binaryblobarray" then some .binaryblobarray
  else if s = "datetimearray" then some .datetimearray
  else none

def mappingTypeToString : MappingType → String
  | .string => "string"
  | .integer => "integer"
  | .double => "double"
  | .boolean => "boolean"
  | .binaryblob => "binaryblob"
  | .datetime => "datetime"
  | .stringarray => "stringarray"
  | .integerarray => "integerarray"
  | .doublearray => "doublearray"
  | .booleanarray => "booleanarray"
  | .binaryblobarray => "binaryblobarray"
  | .datetimearray => "datetimearray"

def retentionFromString : String → Option Retention :=
fun s =>
  if s = "discard" then some .discard
  else if s = "volatile" then some .volatile
  else if s = "stored" then some .stored
  else none

def retentionToString : Retention → String
  | .discard => "discard"
  | .volatile => "volatile"
  | .stored => "stored"

def reliabilityFromString : String → Option Reliability :=
fun s =>
  if s = "unreliable" then some .unreliable
  else if s = "guaranteed" then some .guaranteed
  else if s = "unique" then some .unique
  else none

def reliabilityToString : Reliability → String
  | .unreliable => "unreliable"
  | .guaranteed => "guaranteed"
  | .unique => "unique"

def dbRetentionPolicyFromString : String → Option DatabaseRetentionPolicy :=
fun s =>
  if s = "no_ttl" then some .noTtl
  else if s = "use_ttl" then some .useTtl
  else none

def dbRetentionPolicyToString : DatabaseRetentionPolicy → String
  | .noTtl => "no_ttl"
  | .useTtl => "use_ttl"

/-- Modelled from the spec: one addressable data point of an interface
(`AstarteInterfaceMapping` in the source tests), with defaults already
applied. -/
structure AstarteInterfaceMapping where
  Endpoint : String
  «Type» : MappingType
  Description : String
  Documentation : String
  Retention : Retention
  Reliability : Reliability
  DatabaseRetentionPolicy : DatabaseRetentionPolicy
  DatabaseRetentionTTL : Int
  ExplicitTimestamp : Bool
  AllowUnset : Bool
deriving DecidableEq, Repr

/-- Modelled from the spec: the validated interface entity
(`AstarteInterface` in the source tests). -/
structure AstarteInterface where
  Name : String
  MajorVersion : Int
  MinorVersion : Int
  «Type» : InterfaceType
  Ownership : Ownership
  Aggregation : AggregationType
  Description : String
  Documentation : String
  Mappings : List AstarteInterfaceMapping
deriving DecidableEq, Repr

/-- Modelled from the spec, section 7: the error taxonomy of the parser.
`SyntaxError` is omitted because the JSON text layer is not modelled;
the parser here takes an already lexed `Json` document. -/
inductive InterfaceError where
  | typeMismatchError (field : String) : InterfaceError
  | missingFieldError (field : String) : InterfaceError
  | invalidEnumValueError (field : String) (value : String) : InterfaceError
  | versionInvalidError : InterfaceError
  | aggregationConsistencyError : InterfaceError
deriving DecidableEq, Repr

/-- Intermediate decoded shape of a mapping: every wire field as an
optional value, before validation and default application. -/
structure RawMapping where
  endpoint : Option String
  mtype : Option String
  description : Option String
  documentation : Option String
  retention : Option String
  reliability : Option String
  databaseRetentionPolicy : Option String
  databaseRetentionTTL : Option Int
  explicitTimestamp : Option Bool
  allowUnset : Option Bool
deriving DecidableEq, Repr

/-- Intermediate decoded shape of an interface document. -/
structure RawInterface where
  name : Option String
  versionMajor : Option Int
  versionMinor : Option Int
  itype : Option String
  ownership : Option String
  aggregation : Option String
  description : Option String
  documentation : Option String
  mappings : Option (List RawMapping)
deriving DecidableEq, Repr

/-- Decoder helper: a field that is present must be a JSON string;
absence is tolerated (spec section 4.1). -/
def getStringField (fs : List (String × Json)) (k : String) :
    Except InterfaceError (Option String) :=
  match fs.lookup k with
  | none => .ok none
  | some (Json.str s) => .ok (some s)
  | some _ => .error (.typeMismatchError k)

/-- Decoder helper: a field that is present must be a JSON number. -/
def getIntField (fs : List (String × Json)) (k : String) :
    Except InterfaceError (Option Int) :=
  match fs.lookup k with
  | none => .ok none
  | some (Json.num n) => .ok (some n)
  | some _ => .error (.typeMismatchError k)

/-- Decoder helper: a field that is present must be a JSON boolean. -/
def getBoolField (fs : List (String × Json)) (k : String) :
    Except InterfaceError (Option Bool) :=
  match fs.lookup k with
  | none => .ok none
  | some (Json.bool b) => .ok (some b)
  | some _ => .error (.typeMismatchError k)

/-- Modelled from the spec: decode one element of the `mappings` array.
Unknown fields are ignored; present fields with the wrong JSON type are
a `TypeMismatchError`. -/
def decodeMapping (j : Json) : Except InterfaceError RawMapping :=
  match j with
  | Json.obj fs =>
    match getStringField fs "endpoint" with
    | .error e => .error e
    | .ok endpoint =>
      match getStringField fs "type" with
      | .error e => .error e
      | .ok mtype =>
        match getStringField fs "description" with
        | .error e => .error e
        | .ok description =>
          match getStringField fs "doc" with
          | .error e => .error e
          | .ok documentation =>
            match getStringField fs "retention" with
            | .error e => .error e
            | .ok retention =>
              match getStringField fs "reliability" with
              | .error e => .error e
              | .ok reliability =>
                match getStringField fs "database_retention_policy" with
                | .error e => .error e
                | .ok policy =>
                  match getIntField fs "database_retention_ttl" with
                  | .error e => .error e
                  | .ok ttl =>
                    match getBoolField fs "explicit_timestamp" with
                    | .error e => .error e
                    | .ok expTs =>
                      match getBoolField fs "allow_unset" with
                      | .error e => .error e
                      | .ok unset =>
                        .ok ⟨endpoint, mtype, description, documentation,
                             retention, reliability, policy, ttl, expTs, unset⟩
  | _ => .error (.typeMismatchError "mappings")

/-- Decode each element of the `mappings` array, first failure wins. -/
def decodeMappings : List Json → Except InterfaceError (List RawMapping)
  | [] => .ok []
  | j :: rest =>
    match decodeMapping j with
    | .error e => .error e
    | .ok r =>
      match decodeMappings rest with
      | .error e => .error e
      | .ok rs => .ok (r :: rs)

/-- Modelled from the spec, section 4.1: the decoder.  Decodes the
top-level scalar fields in wire order, then the `mappings` array.
Unknown fields are ignored; a present field whose JSON type disagrees
with the expected semantic type is a `TypeMismatchError` naming the
field.  A non-object document is a mismatch of the whole document. -/
def decodeInterface (j : Json) : Except InterfaceError RawInterface :=
  match j with
  | Json.obj fs =>
    match getStringField fs "interface_name" with
    | .error e => .error e
    | .ok name =>
      match getIntField fs "version_major" with
      | .error e => .error e
      | .ok vmaj =>
        match getIntField fs "version_minor" with
        | .error e => .error e
        | .ok vmin =>
          match getStringField fs "type" with
          | .error e => .error e
          | .ok itype =>
            match getStringField fs "ownership" with
            | .error e => .error e
            | .ok ownership =>
              match getStringField fs "aggregation" with
              | .error e => .error e
              | .ok aggregation =>
                match getStringField fs "description" with
                | .error e => .error e
                | .ok description =>
                  match getStringField fs "doc" with
                  | .error e => .error e
                  | .ok documentation =>
                    match fs.lookup "mappings" with
                    | none =>
                      .ok ⟨name, vmaj, vmin, itype, ownership, aggregation,
                           description, documentation, none⟩
                    | some (Json.arr js) =>
                      match decodeMappings js with
                      | .error e => .error e
                      | .ok ms =>
                        .ok ⟨name, vmaj, vmin, itype, ownership, aggregation,
                             description, documentation, some ms⟩
                    | some _ => .error (.typeMismatchError "mappings")
  | _ => .error (.typeMismatchError "interface")

/-- Modelled from the spec, section 4.2 check 1: `interface_name`
must be present and non-empty. -/
def validateName : Option String → Except InterfaceError String
  | none => .error (.missingFieldError "interface_name")
  | some n => if n = "" then .error (.missingFieldError "interface_name") else .ok n

/-- Modelled from the spec, section 4.2 check 2 and the source tests:
both version fields must be present, and must not both be zero
(a 0.0 version means never released). -/
def validateVersion : Option Int → Option Int → Except InterfaceError (Int × Int)
  | none, _ => .error (.missingFieldError "version_major")
  | some _, none => .error (.missingFieldError "version_minor")
  | some a, some b =>
    if a = 0 ∧ b = 0 then .error .versionInvalidError else .ok (a, b)

/-- Modelled from the spec: a mandatory enumerated field; absence is a
`MissingFieldError`, an unrecognized token an `InvalidEnumValueError`. -/
def validateEnum {α : Type} (field : String) (fromStr : String → Option α) :
    Option String → Except InterfaceError α
  | none => .error (.missingFieldError field)
  | some s =>
    match fromStr s with
    | some v => .ok v
    | none => .error (.invalidEnumValueError field s)

/-- Modelled from the spec: an optional enumerated field with a
documented default; absence yields the default, an unrecognized token
an `InvalidEnumValueError`. -/
def validateEnumDefault {α : Type} (field : String) (fromStr : String → Option α)
    (dflt : α) : Option String → Except InterfaceError α
  | none => .ok dflt
  | some s =>
    match fromStr s with
    | some v => .ok v
    | none => .error (.invalidEnumValueError field s)

/-- Modelled from the spec, section 4.2 check 6: validate one mapping —
`endpoint` non-empty, `type` present and recognized, the three
defaultable enumerated fields recognized when present. -/
def validateMapping (r : RawMapping) : Except InterfaceError AstarteInterfaceMapping :=
  match r.endpoint with
  | none => .error (.missingFieldError "endpoint")
  | some ep =>
    if ep = "" then .error (.missingFieldError "endpoint")
    else
      match validateEnum "type" mappingTypeFromString r.mtype with
      | .error e => .error e
      | .ok ty =>
        match validateEnumDefault "retention" retentionFromString .discard r.retention with
        | .error e => .error e
        | .ok ret =>
          match validateEnumDefault "reliability" reliabilityFromString .unreliable r.reliability with
          | .error e => .error e
          | .ok rel =>
            match validateEnumDefault "database_retention_policy" dbRetentionPolicyFromString .noTtl r.databaseRetentionPolicy with
            | .error e => .error e
            | .ok pol =>
              .ok ⟨ep, ty, r.description.getD "", r.documentation.getD "",
                   ret, rel, pol, r.databaseRetentionTTL.getD 0,
                   r.explicitTimestamp.getD false, r.allowUnset.getD false⟩

/-- Validate each mapping in order, first failure wins. -/
def validateMappings : List RawMapping → Except InterfaceError (List AstarteInterfaceMapping)
  | [] => .ok []
  | r :: rest =>
    match validateMapping r with
    | .error e => .error e
    | .ok m =>
      match validateMappings rest with
      | .error e => .error e
      | .ok ms => .ok (m :: ms)

/-- Modelled from the spec, section 4.2: the validator.  Checks are
applied in the documented priority order: name, version, type,
ownership, mappings presence and non-emptiness, per-mapping checks,
then aggregation derivation (an absent `aggregation` marker defaults to
`individual`). -/
def validate (r : RawInterface) : Except InterfaceError AstarteInterface :=
  match validateName r.name with
  | .error e => .error e
  | .ok name =>
    match validateVersion r.versionMajor r.versionMinor with
    | .error e => .error e
    | .ok (vmaj, vmin) =>
      match validateEnum "type" interfaceTypeFromString r.itype with
      | .error e => .error e
      | .ok ty =>
        match validateEnum "ownership" ownershipFromString r.ownership with
        | .error e => .error e
        | .ok own =>
          match r.mappings with
          | none => .error (.missingFieldError "mappings")
          | some rl =>
            if rl = [] then .error (.missingFieldError "mappings")
            else
              match validateMappings rl with
              | .error e => .error e
              | .ok ms =>
                match validateEnumDefault "aggregation" aggregationFromString .individual r.aggregation with
                | .error e => .error e
                | .ok agg =>
                  .ok ⟨name, vmaj, vmin, ty, own, agg,
                       r.description.getD "", r.documentation.getD "", ms⟩

/-- Modelled from the spec, sections 4.1 and 4.2: the parse entry point —
decode then validate, so callers only observe a validated interface or a
typed error (`ParseInterfaceFromString` in the source, minus the JSON
text syntax layer). -/
def parseInterface (j : Json) : Except InterfaceError AstarteInterface :=
  match decodeInterface j with
  | .error e => .error e
  | .ok r => validate r

/-- Modelled from the spec, section 4.3: encode one mapping to its
canonical wire object. -/
def serializeMapping (m : AstarteInterfaceMapping) : Json :=
  Json.obj [
    ("endpoint", Json.str m.Endpoint),
    ("type", Json.str (mappingTypeToString m.«Type»)),
    ("description", Json.str m.Description),
    ("doc", Json.str m.Documentation),
    ("retention", Json.str (retentionToString m.Retention)),
    ("reliability", Json.str (reliabilityToString m.Reliability)),
    ("database_retention_policy", Json.str (dbRetentionPolicyToString m.DatabaseRetentionPolicy)),
    ("database_retention_ttl", Json.num m.DatabaseRetentionTTL),
    ("explicit_timestamp", Json.bool m.ExplicitTimestamp),
    ("allow_unset", Json.bool m.AllowUnset)]

/-- Modelled from the spec, section 4.3: the encoder — canonical
snake-case wire keys, enumerated fields as their lowercase tokens. -/
def serializeInterface (i : AstarteInterface) : Json :=
  Json.obj [
    ("interface_name", Json.str i.Name),
    ("version_major", Json.num i.MajorVersion),
    ("version_minor", Json.num i.MinorVersion),
    ("type", Json.str (interfaceTypeToString i.«Type»)),
    ("ownership", Json.str (ownershipToString i.Ownership)),
    ("aggregation", Json.str (aggregationToString i.Aggregation)),
    ("description", Json.str i.Description),
    ("doc", Json.str i.Documentation),
    ("mappings", Json.arr (i.Mappings.map serializeMapping))]

/-- A validly-constructed interface value: the structural invariants of
the data model (spec section 3) that are not already enforced by the
types — non-empty name, version not 0.0, at least one mapping, every
mapping endpoint non-empty. -/
def ValidInterface (i : AstarteInterface) : Prop :=
  i.Name ≠ "" ∧ ¬(i.MajorVersion = 0 ∧ i.MinorVersion = 0) ∧
  i.Mappings ≠ [] ∧ ∀ m ∈ i.Mappings, m.Endpoint ≠ ""

instance (i : AstarteInterface) : Decidable (ValidInterface i) := by
  unfold ValidInterface
  infer_instance

/-- The raw record the decoder produces for a serialized mapping:
every wire field present. -/
def rawOfMapping (m : AstarteInterfaceMapping) : RawMapping :=
  ⟨some m.Endpoint, some (mappingTypeToString m.«Type»), some m.Description,
   some m.Documentation, some (retentionToString m.Retention),
   some (reliabilityToString m.Reliability),
   some (dbRetentionPolicyToString m.DatabaseRetentionPolicy),
   some m.DatabaseRetentionTTL, some m.ExplicitTimestamp, some m.AllowUnset⟩

/-- The raw record the decoder produces for a serialized interface. -/
def rawOfInterface (i : AstarteInterface) : RawInterface :=
  ⟨some i.Name, some i.MajorVersion, some i.MinorVersion,
   some (interfaceTypeToString i.«Type»), some (ownershipToString i.Ownership),
   some (aggregationToString i.Aggregation), some i.Description,
   some i.Documentation, some (i.Mappings.map rawOfMapping)⟩

/-- Whether an `Except` value is a success. -/
def isOkE {ε α : Type} : Except ε α → Bool
  | .ok _ => true
  | .error _ => false

/-- Validator checks 1 through 4 succeed on this decoded document:
name present and non-empty, both versions present and not both zero,
type and ownership present with recognized tokens. -/
def headerOk (r : RawInterface) : Bool :=
  isOkE (validateName r.name) &&
  isOkE (validateVersion r.versionMajor r.versionMinor) &&
  isOkE (validateEnum "type" interfaceTypeFromString r.itype) &&
  isOkE (validateEnum "ownership" ownershipFromString r.ownership)

/-- The top-level wire fields the decoder expects to be JSON strings. -/
def scalarKeyIsString (k : String) : Bool :=
  k == "interface_name" || k == "type" || k == "ownership" ||
  k == "aggregation" || k == "description" || k == "doc"

/-- The top-level wire fields the decoder expects to be JSON numbers. -/
def scalarKeyIsInt (k : String) : Bool :=
  k == "version_major" || k == "version_minor"

/-- The document carries, at top-level scalar field `k`, a value whose
JSON type disagrees with the field's expected semantic type. -/
def scalarMismatch (fs : List (String × Json)) (k : String) : Bool :=
  match fs.lookup k with
  | none => false
  | some v =>
    (scalarKeyIsString k && !v.isStr) || (scalarKeyIsInt k && !v.isNum)

/-- The valid document of the source test `TestParsing`: version `0.1`,
no `aggregation` marker, and a second mapping that omits `retention`,
`reliability` and `database_retention_policy`. -/
def doc01Ex : Json :=
  Json.obj [
    ("interface_name", Json.str "org.astarte-platform.genericsensors.AvailableSensors"),
    ("version_major", Json.num 0),
    ("version_minor", Json.num 1),
    ("type", Json.str "properties"),
    ("ownership", Json.str "device"),
    ("description", Json.str "Describes available generic sensors."),
    ("doc", Json.str "This interface allows to describe available sensors."),
    ("mappings", Json.arr [
      Json.obj [
        ("endpoint", Json.str "/sensor/name"),
        ("type", Json.str "string"),
        ("description", Json.str "Sensor name."),
        ("doc", Json.str "An arbitrary sensor name."),
        ("retention", Json.str "discard"),
        ("reliability", Json.str "unreliable"),
        ("database_retention_policy", Json.str "use_ttl"),
        ("database_retention_ttl", Json.num 200)],
      Json.obj [
        ("endpoint", Json.str "/sensor/unit"),
        ("type", Json.str "string"),
        ("description", Json.str "Sample data measurement unit."),
        ("doc", Json.str "SI unit such as m, kg, K")]])]

/-- The decoded raw mappings of `doc01Ex`: the second one omits
`retention`, `reliability` and `database_retention_policy`. -/
def raw01MapsEx : List RawMapping :=
  [⟨some "/sensor/name", some "string", some "Sensor name.",
    some "An arbitrary sensor name.", some "discard", some "unreliable",
    some "use_ttl", some 200, none, none⟩,
   ⟨some "/sensor/unit", some "string", some "Sample data measurement unit.",
    some "SI unit such as m, kg, K", none, none, none, none, none, none⟩]

/-- The decoded raw record of `doc01Ex`. -/
def raw01Ex : RawInterface :=
  ⟨some "org.astarte-platform.genericsensors.AvailableSensors",
   some 0, some 1, some "properties", some "device", none,
   some "Describes available generic sensors.",
   some "This interface allows to describe available sensors.",
   some raw01MapsEx⟩

/-- The validated interface `doc01Ex` parses to. -/
def parsed01Ex : AstarteInterface :=
  ⟨"org.astarte-platform.genericsensors.AvailableSensors", 0, 1,
   .properties, .device, .individual,
   "Describes available generic sensors.",
   "This interface allows to describe available sensors.",
   [⟨"/sensor/name", .string, "Sensor name.", "An arbitrary sensor name.",
     .discard, .unreliable, .useTtl, 200, false, false⟩,
    ⟨"/sensor/unit", .string, "Sample data measurement unit.",
     "SI unit such as m, kg, K", .discard, .unreliable, .noTtl, 0, false, false⟩]⟩

/-- The document of the source test `TestFailedInterfaceVersionParsing`:
well-formed except that both version fields are zero. -/
def doc00Ex : Json :=
  Json.obj [
    ("interface_name", Json.str "org.astarte-platform.genericsensors.AvailableSensors"),
    ("version_major", Json.num 0),
    ("version_minor", Json.num 0),
    ("type", Json.str "properties"),
    ("ownership", Json.str "device"),
    ("mappings", Json.arr [
      Json.obj [
        ("endpoint", Json.str "/sensor/name"),
        ("type", Json.str "string")]])]

/-- The decoded raw record of `doc00Ex`. -/
def raw00Ex : RawInterface :=
  ⟨some "org.astarte-platform.genericsensors.AvailableSensors",
   some 0, some 0, some "properties", some "device", none, none, none,
   some [⟨some "/sensor/name", some "string", none, none, none, none,
          none, none, none, none⟩]⟩

/-- An otherwise-valid document whose `mappings` array is empty, as in
the `emptyInterfaceMappings` case of the source test `TestParsing`. -/
def docEmptyMapsEx : Json :=
  Json.obj [
    ("interface_name", Json.str "org.astarte-platform.genericsensors.AvailableSensors"),
    ("version_major", Json.num 1),
    ("version_minor", Json.num 0),
    ("type", Json.str "properties"),
    ("ownership", Json.str "device"),
    ("mappings", Json.arr [])]

/-- The decoded raw record of `docEmptyMapsEx`. -/
def rawEmptyMapsEx : RawInterface :=
  ⟨some "org.astarte-platform.genericsensors.AvailableSensors",
   some 1, some 0, some "properties", some "device", none, none, none,
   some []⟩

/-- An otherwise-valid document whose only mapping has no `endpoint`,
as in the `missingInterfaceMappingEndpoint` case of `TestParsing`. -/
def docNoEndpointEx : Json :=
  Json.obj [
    ("interface_name", Json.str "org.astarte-platform.genericsensors.AvailableSensors"),
    ("version_major", Json.num 1),
    ("version_minor", Json.num 0),
    ("type", Json.str "properties"),
    ("ownership", Json.str "device"),
    ("mappings", Json.arr [
      Json.obj [
        ("type", Json.str "string")]])]

/-- The decoded raw record of `docNoEndpointEx`. -/
def rawNoEndpointEx : RawInterface :=
  ⟨some "org.astarte-platform.genericsensors.AvailableSensors",
   some 1, some 0, some "properties", some "device", none, none, none,
   some [⟨none, some "string", none, none, none, none, none, none, none, none⟩]⟩

/-- The raw mapping of `docNoEndpointEx`, with no endpoint. -/
def rawNoEndpointMapEx : RawMapping :=
  ⟨none, some "string", none, none, none, none, none, none, none, none⟩

/-- The top-level fields of the document of the source test
`TestFailedMarshalingParsing`: `version_minor` a string, `type` and
`ownership` numbers. -/
def fsTypeMismatchEx : List (String × Json) :=
  [("interface_name", Json.str "org.astarte-platform.genericsensors.AvailableSensors"),
   ("version_minor", Json.str "test"),
   ("type", Json.num 3),
   ("ownership", Json.num 2),
   ("mappings", Json.arr [])]

/-- A validly-constructed interface value, the one built in the source
test `TestMarshaling`. -/
def marshalingEx : AstarteInterface :=
  ⟨"org.astarte-platform.genericsensors.AvailableSensors", 1, 0,
   .properties, .device, .individual,
   "Describes available generic sensors.",
   "This interface allows to describe available sensors.",
   [⟨"/sensor/name", .string, "Sensor name.", "An arbitrary sensor name.",
     .discard, .unreliable, .useTtl, 30000, false, false⟩,
    ⟨"/sensor/unit", .string, "Sample data measurement unit.",
     "SI unit such as m, kg, K", .discard, .unreliable, .noTtl, 0, false, false⟩]⟩

end Interfaces

deriving instance DecidableEq for Except

namespace ClientApi

/-- `ReplicationClass` from api_types.go: replication strategies for a
Realm.  `SimpleStrategy` is the first (zero-valued) constant. -/
inductive ReplicationClass where
  | SimpleStrategy : ReplicationClass
  | NetworkTopologyStrategy : ReplicationClass
deriving DecidableEq, Repr

/-- The `toString` table of api_types.go. -/
def replicationClassToString : ReplicationClass → String
  | .SimpleStrategy => "SimpleStrategy"
  | .NetworkTopologyStrategy => "NetworkTopologyStrategy"

/-- The `toID` table of api_types.go, as an association list. -/
def toID : List (String × ReplicationClass) :=
  [("SimpleStrategy", ReplicationClass.SimpleStrategy),
   ("NetworkTopologyStrategy", ReplicationClass.NetworkTopologyStrategy)]

/-- `ReplicationClass.MarshalJSON`: the enum as a quoted JSON string. -/
def ReplicationClass.marshalJSON (s : ReplicationClass) : Json :=
  Json.str (replicationClassToString s)

/-- `ReplicationClass.UnmarshalJSON` from api_types.go, over lexed JSON
values: `json.Unmarshal(b, &j)` into a `string` succeeds exactly on a
JSON string; then `*s = toID[j]`, where a Go map index with an absent
key yields the zero value of the element type — here
`ReplicationClass(0) = SimpleStrategy`. -/
def ReplicationClass.unmarshalJSON (b : Json) : Except String ReplicationClass :=
  match b with
  | Json.str j => .ok ((toID.lookup j).getD ReplicationClass.SimpleStrategy)
  | _ => .error "json: cannot unmarshal value into Go value of type string"

/-- A broken-down `time.Time`: calendar fields plus a zone offset in
minutes.  Only construction (parsing) matters to the claims, so no
clock arithmetic is modelled. -/
structure GoTime where
  year : Nat
  month : Nat
  day : Nat
  hour : Nat
  minute : Nat
  second : Nat
  nanosecond : Nat
  offsetMinutes : Int
deriving DecidableEq, Repr

/-- The zero `time.Time`: January 1, year 1, 00:00:00 UTC. -/
def GoTime.zero : GoTime := ⟨1, 1, 1, 0, 0, 0, 0, 0⟩

/-- Read exactly `n` leading decimal digits. -/
def parseNDigits (n : Nat) (cs : List Char) : Option (Nat × List Char) :=
  if (cs.take n).length = n ∧ (cs.take n).all Char.isDigit then
    some ((cs.take n).foldl (fun a c => a * 10 + (c.toNat - 48)) 0, cs.drop n)
  else none

/-- Consume one expected character. -/
def expectChar (c : Char) : List Char → Option (List Char)
  | [] => none
  | x :: rest => if x = c then some rest else none

/-- Digits after the decimal point, scaled to nanoseconds (at most nine
significant digits, the rest truncated). -/
def fracToNanos (ds : List Char) : Nat :=
  ((ds.take 9).foldl (fun a c => a * 10 + (c.toNat - 48)) 0) *
    10 ^ (9 - (ds.take 9).length)

/-- Optional fractional-second part: a point followed by at least one
digit; no point means zero nanoseconds. -/
def parseFraction (cs : List Char) : Option (Nat × List Char) :=
  match cs with
  | '.' :: rest =>
    if (rest.takeWhile Char.isDigit) = ([] : List Char) then none
    else some (fracToNanos (rest.takeWhile Char.isDigit), rest.dropWhile Char.isDigit)
  | _ => some (0, cs)

/-- Zone part: `Z` for UTC or a signed `hh:mm` offset. -/
def parseOffset : List Char → Option (Int × List Char)
  | [] => none
  | c :: rest =>
    if c = 'Z' then some (0, rest)
    else if c = '+' ∨ c = '-' then
      match parseNDigits 2 rest with
      | none => none
      | some (h, r1) =>
        match expectChar ':' r1 with
        | none => none
        | some r2 =>
          match parseNDigits 2 r2 with
          | none => none
          | some (m, r3) =>
            if h ≤ 23 ∧ m ≤ 59 then
              some ((if c = '-' then (-1 : Int) else 1) * (h * 60 + m : Nat), r3)
            else none
    else none

/-- Body of the RFC 3339 parser over the character list:
`YYYY-MM-DDTHH:MM:SS[.fraction](Z|±hh:mm)`, with calendar-field range
checks. -/
def parseRFC3339NanoAux (cs : List Char) : Option GoTime :=
  match parseNDigits 4 cs with
  | none => none
  | some (y, r1) =>
    match expectChar '-' r1 with
    | none => none
    | some r2 =>
      match parseNDigits 2 r2 with
      | none => none
      | some (mo, r3) =>
        match expectChar '-' r3 with
        | none => none
        | some r4 =>
          match parseNDigits 2 r4 with
          | none => none
          | some (d, r5) =>
            match expectChar 'T' r5 with
            | none => none
            | some r6 =>
              match parseNDigits 2 r6 with
              | none => none
              | some (h, r7) =>
                match expectChar ':' r7 with
                | none => none
                | some r8 =>
                  match parseNDigits 2 r8 with
                  | none => none
                  | some (mi, r9) =>
                    match expectChar ':' r9 with
                    | none => none
                    | some r10 =>
                      match parseNDigits 2 r10 with
                      | none => none
                      | some (sec, r11) =>
                        match parseFraction r11 with
                        | none => none
                        | some (ns, r12) =>
                          match parseOffset r12 with
                          | none => none
                          | some (off, r13) =>
                            if r13 = ([] : List Char) ∧
                               1 ≤ mo ∧ mo ≤ 12 ∧ 1 ≤ d ∧ d ≤ 31 ∧
                               h ≤ 23 ∧ mi ≤ 59 ∧ sec ≤ 59 then
                              some ⟨y, mo, d, h, mi, sec, ns, off⟩
                            else none

/-- Modelled from the spec: `time.Parse(time.RFC3339Nano, v)` of the Go
standard library (an external collaborator of this repository), the
format `2006-01-02T15:04:05.999999999Z07:00` — date and clock fields, an
optional fractional second, and a `Z` or signed `hh:mm` zone. -/
def parseRFC3339Nano (s : String) : Except String GoTime :=
  match parseRFC3339NanoAux s.data with
  | some t => .ok t
  | none => .error ("parsing time " ++ s ++ " as RFC3339Nano: cannot parse")

/-- `orderedmap.OrderedMap.Get`: the value stored at a key. -/
def omapGet (m : List (String × Json)) (k : String) : Option Json :=
  m.lookup k

/-- `orderedmap.OrderedMap.Delete`: drop the entry at a key, preserving
the order of the others. -/
def omapDelete (m : List (String × Json)) (k : String) : List (String × Json) :=
  m.filter (fun p => p.1 != k)

/-- `DatastreamAggregateValue` from api_types.go: a datastream value for
an aggregate — the insertion-ordered values map and the timestamp. -/
structure DatastreamAggregateValue where
  Values : List (String × Json)
  Timestamp : GoTime

/-- `DatastreamAggregateValue.UnmarshalJSON` from api_types.go, over the
ordered map decoded from the JSON object.  The source switches on the
dynamic type of the `timestamp` entry: the `time.Time` case can never
fire for a JSON-decoded value, the `string` case parses RFC3339Nano and
fails the whole call on a parse error, and any other shape (absent
entry included) leaves the timestamp at its zero value.  In every
successful case the `timestamp` key is deleted from the map before it
is stored in `Values`. -/
def DatastreamAggregateValue.unmarshalJSON (j : List (String × Json)) :
    Except String DatastreamAggregateValue :=
  match omapGet j "timestamp" with
  | some (Json.str v) =>
    match parseRFC3339Nano v with
    | .error e => .error e
    | .ok t => .ok ⟨omapDelete j "timestamp", t⟩
  | _ => .ok ⟨omapDelete j "timestamp", GoTime.zero⟩

/-- An HTTP request as built by `makeHTTPrequest`: method and URL (the
body, when present, is the serialized payload and plays no role in the
claims). -/
structure HTTPRequest where
  method : String
  url : String
deriving DecidableEq, Repr

/-- An HTTP response: status code and raw body. -/
structure HTTPResponse where
  statusCode : Nat
  body : String
deriving DecidableEq, Repr

/-- The Astarte client: only the realm-management base URL matters to
the modelled request builders. -/
structure Client where
  realmManagementURL : String
deriving DecidableEq, Repr

/-- The `AstarteRequest` interface, restricted to the two realm-management
request types the claims are about.  Each variant carries the built
HTTP request and the expected status code, as the source structs do. -/
inductive AstarteRequest where
  | listTriggersRequest (req : HTTPRequest) (expects : Nat) : AstarteRequest
  | listTriggerDeliveryPoliciesRequest (req : HTTPRequest) (expects : Nat) : AstarteRequest
deriving DecidableEq, Repr

/-- The `AstarteResponse` interface, restricted to the variants reachable
from the modelled requests. -/
inductive AstarteResponse where
  | listTriggersResponse (res : HTTPResponse) : AstarteResponse
  | listTriggerDeliveryPoliciesResponse (res : HTTPResponse) : AstarteResponse
deriving DecidableEq, Repr

/-- The `Run` method dispatched on the dynamic request type, given the
response the HTTP round trip produced: a status other than the expected
one is turned into an error by `runAstarteRequestError`, and a matching
one is wrapped in the response type belonging to the request type. -/
def AstarteRequest.run (r : AstarteRequest) (res : HTTPResponse) :
    Except String AstarteResponse :=
  match r with
  | .listTriggersRequest _ expects =>
    if res.statusCode ≠ expects then .error "received unexpected status code"
    else .ok (.listTriggersResponse res)
  | .listTriggerDeliveryPoliciesRequest _ expects =>
    if res.statusCode ≠ expects then .error "received unexpected status code"
    else .ok (.listTriggerDeliveryPoliciesResponse res)

/-- `Client.ListTriggers`: GET `/v1/<realm>/triggers`, expecting 200
(`makeURL` is modelled as format-string substitution into the base
URL). -/
def Client.ListTriggers (c : Client) (realm : String) : AstarteRequest :=
  AstarteRequest.listTriggersRequest
    ⟨"GET", c.realmManagementURL ++ "/v1/" ++ realm ++ "/triggers"⟩ 200

/-- `Client.ListTriggerDeliveryPolicies` from the realm-management
source: GET `/v1/<realm>/policies`, expecting 200 — but the value it
returns is a `ListTriggersRequest`, exactly as on the source line
`return ListTriggersRequest{req: req, expects: 200}`. -/
def Client.ListTriggerDeliveryPolicies (c : Client) (realm : String) : AstarteRequest :=
  AstarteRequest.listTriggersRequest
    ⟨"GET", c.realmManagementURL ++ "/v1/" ++ realm ++ "/policies"⟩ 200

/-- A decoded aggregate payload: one value and an RFC 3339 timestamp. -/
def aggEx : List (String × Json) :=
  [("timestamp", Json.str "2020-01-02T03:04:05Z"), ("value", Json.num 42)]

/-- The `DatastreamAggregateValue` that `aggEx` unmarshals to. -/
def aggExVal : DatastreamAggregateValue :=
  ⟨[("value", Json.num 42)], ⟨2020, 1, 2, 3, 4, 5, 0, 0⟩⟩

end ClientApi

namespace Interfaces

theorem interfaceType_round (t : InterfaceType) :
    interfaceTypeFromString (interfaceTypeToString t) = some t := by
  cases t <;> rfl

theorem ownership_round (o : Ownership) :
    ownershipFromString (ownershipToString o) = some o := by
  cases o <;> rfl

theorem aggregation_round (a : AggregationType) :
    aggregationFromString (aggregationToString a) = some a := by
  cases a <;> rfl

theorem mappingType_round (t : MappingType) :
    mappingTypeFromString (mappingTypeToString t) = some t := by
  cases t <;> rfl

theorem retention_round (r : Retention) :
    retentionFromString (retentionToString r) = some r := by
  cases r <;> rfl

theorem reliability_round (r : Reliability) :
    reliabilityFromString (reliabilityToString r) = some r := by
  cases r <;> rfl

theorem dbRetentionPolicy_round (p : DatabaseRetentionPolicy) :
    dbRetentionPolicyFromString (dbRetentionPolicyToString p) = some p := by
  cases p <;> rfl

theorem decodeMapping_serialize (m : AstarteInterfaceMapping) :
    decodeMapping (serializeMapping m) = .ok (rawOfMapping m) := rfl

theorem decodeMappings_serialize (ml : List AstarteInterfaceMapping) :
    decodeMappings (ml.map serializeMapping) = .ok (ml.map rawOfMapping) := by
  induction ml with
  | nil => rfl
  | cons m rest ih =>
    simp [decodeMappings, decodeMapping_serialize, ih]

theorem decodeInterface_serialize (i : AstarteInterface) :
    decodeInterface (serializeInterface i) = .ok (rawOfInterface i) := by
  have hm := decodeMappings_serialize i.Mappings
  simp [decodeInterface, serializeInterface, getStringField, getIntField,
        rawOfInterface, hm, List.lookup]

theorem validateMapping_rawOf (m : AstarteInterfaceMapping) (h : m.Endpoint ≠ "") :
    validateMapping (rawOfMapping m) = .ok m := by
  simp [validateMapping, rawOfMapping, validateEnum, validateEnumDefault, h,
        mappingType_round, retention_round, reliability_round,
        dbRetentionPolicy_round]

theorem validateMappings_rawOf (ml : List AstarteInterfaceMapping)
    (h : ∀ m ∈ ml, m.Endpoint ≠ "") :
    validateMappings (ml.map rawOfMapping) = .ok ml := by
  induction ml with
  | nil => rfl
  | cons m rest ih =>
    have h1 : m.Endpoint ≠ "" := h m (List.mem_cons_self m rest)
    have h2 : ∀ x ∈ rest, x.Endpoint ≠ "" := fun x hx => h x (List.mem_cons_of_mem m hx)
    simp [validateMappings, validateMapping_rawOf m h1, ih h2]

theorem validate_rawOf (i : AstarteInterface) (h : ValidInterface i) :
    validate (rawOfInterface i) = .ok i := by
  obtain ⟨h1, h2, h3, h4⟩ := h
  have h5 : i.Mappings.map rawOfMapping ≠ [] := by
    simpa using h3
  simp [validate, rawOfInterface, validateName, validateVersion, validateEnum,
        validateEnumDefault, h1, h2, h5, interfaceType_round, ownership_round,
        aggregation_round, validateMappings_rawOf i.Mappings h4]

/-- C1: for every validly-constructed Interface `x`, serializing `x` to
JSON, then decoding and validating the result, succeeds and yields a
value semantically equal to `x` — same fields, same defaults applied. -/
theorem serialize_parse_roundtrip (i : AstarteInterface) (h : ValidInterface i) :
    parseInterface (serializeInterface i) = .ok i := by
  simp [parseInterface, decodeInterface_serialize, validate_rawOf i h]

/-- C1 witness: the round trip at the interface value built by the
source test `TestMarshaling`. -/
theorem serialize_parse_roundtrip_witness :
    ValidInterface marshalingEx ∧
    parseInterface (serializeInterface marshalingEx) = .ok marshalingEx :=
  ⟨by decide, serialize_parse_roundtrip marshalingEx (by decide)⟩

theorem validateName_ok_inv {o : Option String} {n : String}
    (h : validateName o = .ok n) : o = some n ∧ n ≠ "" := by
  cases o with
  | none => simp [validateName] at h
  | some s =>
    by_cases hs : s = ""
    · simp [validateName, hs] at h
    · simp only [validateName, if_neg hs, Except.ok.injEq] at h
      subst h
      exact ⟨rfl, hs⟩

theorem validateVersion_ok_inv {a b : Option Int} {p : Int × Int}
    (h : validateVersion a b = .ok p) :
    a = some p.1 ∧ b = some p.2 ∧ ¬(p.1 = 0 ∧ p.2 = 0) := by
  cases a with
  | none => simp [validateVersion] at h
  | some x =>
    cases b with
    | none => simp [validateVersion] at h
    | some y =>
      by_cases hxy : x = 0 ∧ y = 0
      · simp [validateVersion, hxy] at h
      · simp only [validateVersion, if_neg hxy, Except.ok.injEq] at h
        subst h
        exact ⟨rfl, rfl, hxy⟩

theorem validateEnum_ok_inv {α : Type} {field : String}
    {fromStr : String → Option α} {o : Option String} {v : α}
    (h : validateEnum field fromStr o = .ok v) :
    ∃ s, o = some s ∧ fromStr s = some v := by
  cases o with
  | none => simp [validateEnum] at h
  | some s =>
    cases hf : fromStr s with
    | none => simp [validateEnum, hf] at h
    | some w =>
      simp only [validateEnum, hf, Except.ok.injEq] at h
      subst h
      exact ⟨s, rfl, hf⟩

theorem validateEnumDefault_ok_inv {α : Type} {field : String}
    {fromStr : String → Option α} {dflt : α} {o : Option String} {v : α}
    (h : validateEnumDefault field fromStr dflt o = .ok v) :
    (o = none ∧ v = dflt) ∨ ∃ s, o = some s ∧ fromStr s = some v := by
  cases o with
  | none =>
    simp only [validateEnumDefault, Except.ok.injEq] at h
    exact Or.inl ⟨rfl, h.symm⟩
  | some s =>
    cases hf : fromStr s with
    | none => simp [validateEnumDefault, hf] at h
    | some w =>
      simp only [validateEnumDefault, hf, Except.ok.injEq] at h
      subst h
      exact Or.inr ⟨s, rfl, hf⟩

theorem validateMapping_ok_inv {r : RawMapping} {m : AstarteInterfaceMapping}
    (h : validateMapping r = .ok m) :
    (∃ ep, r.endpoint = some ep ∧ ep ≠ "" ∧ m.Endpoint = ep) ∧
    (∃ s, r.mtype = some s ∧ mappingTypeFromString s = some m.«Type») ∧
    (r.retention = none → m.Retention = .discard) ∧
    (r.reliability = none → m.Reliability = .unreliable) ∧
    (r.databaseRetentionPolicy = none → m.DatabaseRetentionPolicy = .noTtl) := by
  unfold validateMapping at h
  cases he : r.endpoint with
  | none => simp [he] at h
  | some ep =>
    simp only [he] at h
    by_cases hep : ep = ""
    · simp [hep] at h
    · rw [if_neg hep] at h
      cases ht : validateEnum "type" mappingTypeFromString r.mtype with
      | error e => simp [ht] at h
      | ok ty =>
        simp only [ht] at h
        cases hret : validateEnumDefault "retention" retentionFromString .discard r.retention with
        | error e => simp [hret] at h
        | ok ret =>
          simp only [hret] at h
          cases hrel : validateEnumDefault "reliability" reliabilityFromString .unreliable r.reliability with
          | error e => simp [hrel] at h
          | ok rel =>
            simp only [hrel] at h
            cases hpol : validateEnumDefault "database_retention_policy" dbRetentionPolicyFromString .noTtl r.databaseRetentionPolicy with
            | error e => simp [hpol] at h
            | ok pol =>
              simp only [hpol] at h
              simp only [Except.ok.injEq] at h
              subst h
              refine ⟨⟨ep, rfl, hep, rfl⟩, ?_, ?_, ?_, ?_⟩
              · obtain ⟨s, hs, hf⟩ := validateEnum_ok_inv ht
                exact ⟨s, hs, hf⟩
              · intro hnone
                rcases validateEnumDefault_ok_inv hret with ⟨_, hd⟩ | ⟨s, hs, _⟩
                · exact hd
                · rw [hnone] at hs; cases hs
              · intro hnone
                rcases validateEnumDefault_ok_inv hrel with ⟨_, hd⟩ | ⟨s, hs, _⟩
                · exact hd
                · rw [hnone] at hs; cases hs
              · intro hnone
                rcases validateEnumDefault_ok_inv hpol with ⟨_, hd⟩ | ⟨s, hs, _⟩
                · exact hd
                · rw [hnone] at hs; cases hs

theorem validateMappings_ok_get {rl : List RawMapping}
    {ml : List AstarteInterfaceMapping} (h : validateMappings rl = .ok ml) :
    ml.length = rl.length ∧
    ∀ k (hk : k < rl.length) (hk2 : k < ml.length),
      validateMapping (rl.get ⟨k, hk⟩) = .ok (ml.get ⟨k, hk2⟩) := by
  induction rl generalizing ml with
  | nil =>
    simp only [validateMappings, Except.ok.injEq] at h
    subst h
    exact ⟨rfl, fun k hk _ => absurd hk (Nat.not_lt_zero k)⟩
  | cons a rest ih =>
    unfold validateMappings at h
    cases ha : validateMapping a with
    | error e => simp [ha] at h
    | ok m0 =>
      simp only [ha] at h
      cases hrest : validateMappings rest with
      | error e => simp [hrest] at h
      | ok ms =>
        simp only [hrest] at h
        simp only [Except.ok.injEq] at h
        subst h
        obtain ⟨hlen, hget⟩ := ih hrest
        refine ⟨by simp [hlen], ?_⟩
        intro k hk hk2
        cases k with
        | zero => simpa using ha
        | succ k' =>
          have hk' : k' < rest.length := Nat.lt_of_succ_lt_succ hk
          have hk2' : k' < ms.length := Nat.lt_of_succ_lt_succ hk2
          simpa using hget k' hk' hk2'

theorem validateMappings_ok_mem {rl : List RawMapping}
    {ml : List AstarteInterfaceMapping} (h : validateMappings rl = .ok ml) :
    ∀ r ∈ rl, ∃ m, validateMapping r = .ok m := by
  induction rl generalizing ml with
  | nil => intro r hr; cases hr
  | cons a rest ih =>
    intro r hr
    unfold validateMappings at h
    cases ha : validateMapping a with
    | error e => simp [ha] at h
    | ok m0 =>
      simp only [ha] at h
      cases hrest : validateMappings rest with
      | error e => simp [hrest] at h
      | ok ms =>
        rcases List.mem_cons.mp hr with rfl | hr2
        · exact ⟨m0, ha⟩
        · exact ih hrest r hr2

theorem validate_ok_inv {r : RawInterface} {i : AstarteInterface}
    (h : validate r = .ok i) :
    validateName r.name = .ok i.Name ∧
    validateVersion r.versionMajor r.versionMinor = .ok (i.MajorVersion, i.MinorVersion) ∧
    validateEnum "type" interfaceTypeFromString r.itype = .ok i.«Type» ∧
    validateEnum "ownership" ownershipFromString r.ownership = .ok i.Ownership ∧
    (∃ rl, r.mappings = some rl ∧ rl ≠ [] ∧ validateMappings rl = .ok i.Mappings) ∧
    validateEnumDefault "aggregation" aggregationFromString .individual r.aggregation = .ok i.Aggregation := by
  unfold validate at h
  cases hn : validateName r.name with
  | error e => simp [hn] at h
  | ok name =>
    simp only [hn] at h
    cases hv : validateVersion r.versionMajor r.versionMinor with
    | error e => simp [hv] at h
    | ok p =>
      simp only [hv] at h
      cases ht : validateEnum "type" interfaceTypeFromString r.itype with
      | error e => simp [ht] at h
      | ok ty =>
        simp only [ht] at h
        cases ho : validateEnum "ownership" ownershipFromString r.ownership with
        | error e => simp [ho] at h
        | ok own =>
          simp only [ho] at h
          cases hm : r.mappings with
          | none => simp [hm] at h
          | some rl =>
            simp only [hm] at h
            by_cases hrl : rl = []
            · simp [hrl] at h
            · rw [if_neg hrl] at h
              cases hms : validateMappings rl with
              | error e => simp [hms] at h
              | ok ms =>
                simp only [hms] at h
                cases ha : validateEnumDefault "aggregation" aggregationFromString .individual r.aggregation with
                | error e => simp [ha] at h
                | ok agg =>
                  simp only [ha] at h
                  obtain ⟨p1, p2⟩ := p
                  simp only [Except.ok.injEq] at h
                  subst h
                  exact ⟨rfl, rfl, rfl, rfl, ⟨rl, rfl, hrl, hms⟩, rfl⟩

theorem parseInterface_ok_inv {doc : Json} {r : RawInterface}
    {i : AstarteInterface} (hd : decodeInterface doc = .ok r)
    (hp : parseInterface doc = .ok i) : validate r = .ok i := by
  unfold parseInterface at hp
  rw [hd] at hp
  exact hp

theorem isOkE_ok_inv {ε α : Type} {e : Except ε α} (h : isOkE e = true) :
    ∃ a, e = .ok a := by
  cases e with
  | ok a => exact ⟨a, rfl⟩
  | error x => simp [isOkE] at h

/-- C2: a document whose decoded `version_major` and `version_minor`
are both zero is never accepted, and — the name check being the only
one ahead of the version check — when its `interface_name` is present
and non-empty the reported error is precisely `VersionInvalidError`;
an otherwise-valid document with version `0.1` (the valid document of
the source test `TestParsing`) is accepted. -/
theorem version_zero_rejected :
    (∀ doc r, decodeInterface doc = .ok r → r.versionMajor = some 0 →
       r.versionMinor = some 0 →
       isOkE (parseInterface doc) = false ∧
       (∀ n, r.name = some n → n ≠ "" →
          parseInterface doc = .error .versionInvalidError)) ∧
    parseInterface doc01Ex = .ok parsed01Ex := by
  constructor
  · intro doc r hd hM hm
    constructor
    · cases hp : parseInterface doc with
      | error e => rfl
      | ok i =>
        obtain ⟨_, hv, _, _, _, _⟩ := validate_ok_inv (parseInterface_ok_inv hd hp)
        obtain ⟨ha, hb, hnz⟩ := validateVersion_ok_inv hv
        rw [hM] at ha
        rw [hm] at hb
        injection ha with ha
        injection hb with hb
        exact absurd ⟨ha.symm, hb.symm⟩ hnz
    · intro n hn hne
      have hvn : validateName r.name = .ok n := by
        simp [validateName, hn, hne]
      have hvv : validateVersion r.versionMajor r.versionMinor =
          .error .versionInvalidError := by
        simp [validateVersion, hM, hm]
      unfold parseInterface
      rw [hd]
      unfold validate
      simp only [hvn, hvv]
  · decide

/-- C2 witness: the document of the source test
`TestFailedInterfaceVersionParsing`, with version `0.0`, is rejected
with `VersionInvalidError`. -/
theorem version_zero_rejected_witness :
    decodeInterface doc00Ex = .ok raw00Ex ∧
    raw00Ex.versionMajor = some 0 ∧ raw00Ex.versionMinor = some 0 ∧
    parseInterface doc00Ex = .error .versionInvalidError :=
  ⟨by decide, rfl, rfl,
   (version_zero_rejected.1 doc00Ex raw00Ex (by decide) rfl rfl).2
     "org.astarte-platform.genericsensors.AvailableSensors" rfl (by decide)⟩

/-- C3: a document whose decoded `mappings` array is absent or empty is
never accepted, and when the four header checks ahead of the mappings
check pass, the reported error is precisely `MissingFieldError` on
field `mappings`. -/
theorem mappings_missing_rejected (doc : Json) (r : RawInterface)
    (hd : decodeInterface doc = .ok r)
    (hm : r.mappings = none ∨ r.mappings = some []) :
    isOkE (parseInterface doc) = false ∧
    (headerOk r = true →
       parseInterface doc = .error (.missingFieldError "mappings")) := by
  constructor
  · cases hp : parseInterface doc with
    | error e => rfl
    | ok i =>
      obtain ⟨_, _, _, _, ⟨rl, hrl, hne, _⟩, _⟩ :=
        validate_ok_inv (parseInterface_ok_inv hd hp)
      rcases hm with h1 | h1
      · rw [h1] at hrl; cases hrl
      · rw [h1] at hrl
        injection hrl with hh
        exact (hne hh.symm).elim
  · intro hh
    obtain ⟨⟨⟨o1, o2⟩, o3⟩, o4⟩ :
        (((isOkE (validateName r.name) = true ∧
           isOkE (validateVersion r.versionMajor r.versionMinor) = true) ∧
          isOkE (validateEnum "type" interfaceTypeFromString r.itype) = true) ∧
         isOkE (validateEnum "ownership" ownershipFromString r.ownership) = true) := by
      simpa [headerOk, Bool.and_eq_true, and_assoc] using hh
    obtain ⟨n, hn⟩ := isOkE_ok_inv o1
    obtain ⟨p, hv⟩ := isOkE_ok_inv o2
    obtain ⟨ty, ht⟩ := isOkE_ok_inv o3
    obtain ⟨ow, ho⟩ := isOkE_ok_inv o4
    unfold parseInterface
    rw [hd]
    unfold validate
    obtain ⟨p1, p2⟩ := p
    rcases hm with h1 | h1 <;> simp only [hn, hv, ht, ho, h1]
    rfl

/-- C3 witness: the `emptyInterfaceMappings` document of the source test
`TestParsing` is rejected with `MissingFieldError` on `mappings`. -/
theorem mappings_missing_rejected_witness :
    decodeInterface docEmptyMapsEx = .ok rawEmptyMapsEx ∧
    rawEmptyMapsEx.mappings = some [] ∧ headerOk rawEmptyMapsEx = true ∧
    parseInterface docEmptyMapsEx = .error (.missingFieldError "mappings") :=
  ⟨by decide, rfl, by decide,
   (mappings_missing_rejected docEmptyMapsEx rawEmptyMapsEx (by decide)
      (Or.inr rfl)).2 (by decide)⟩

/-- C4: a document one of whose decoded mappings has an absent or empty
`endpoint`, or an absent or unrecognized `type`, is never accepted. -/
theorem mapping_endpoint_type_rejected (doc : Json) (r : RawInterface)
    (rl : List RawMapping) (rm : RawMapping)
    (hd : decodeInterface doc = .ok r) (hm : r.mappings = some rl)
    (hmem : rm ∈ rl)
    (hbad : rm.endpoint = none ∨ rm.endpoint = some "" ∨ rm.mtype = none ∨
       ∃ s, rm.mtype = some s ∧ mappingTypeFromString s = none) :
    isOkE (parseInterface doc) = false := by
  cases hp : parseInterface doc with
  | error e => rfl
  | ok i =>
    obtain ⟨_, _, _, _, ⟨rl2, hrl2, _, hms⟩, _⟩ :=
      validate_ok_inv (parseInterface_ok_inv hd hp)
    rw [hm] at hrl2
    injection hrl2 with hh
    subst hh
    obtain ⟨m, hvm⟩ := validateMappings_ok_mem hms rm hmem
    obtain ⟨⟨ep, hep, hepne, _⟩, ⟨s, hsome, hrec⟩, _, _, _⟩ :=
      validateMapping_ok_inv hvm
    rcases hbad with h1 | h1 | h1 | ⟨s2, hs2, hs2n⟩
    · rw [h1] at hep; cases hep
    · rw [h1] at hep; injection hep with he; exact (hepne he.symm).elim
    · rw [h1] at hsome; cases hsome
    · rw [hs2] at hsome
      injection hsome with he
      rw [he] at hs2n
      rw [hs2n] at hrec
      cases hrec

/-- C4 witness: the `missingInterfaceMappingEndpoint` document of the
source test `TestParsing`, whose only mapping has no `endpoint`, is
rejected. -/
theorem mapping_endpoint_type_rejected_witness :
    decodeInterface docNoEndpointEx = .ok rawNoEndpointEx ∧
    rawNoEndpointEx.mappings = some [rawNoEndpointMapEx] ∧
    rawNoEndpointMapEx.endpoint = none ∧
    isOkE (parseInterface docNoEndpointEx) = false :=
  ⟨by decide, rfl, rfl,
   mapping_endpoint_type_rejected docNoEndpointEx rawNoEndpointEx
     [rawNoEndpointMapEx] rawNoEndpointMapEx (by decide) rfl
     (List.mem_singleton.mpr rfl) (Or.inl rfl)⟩

/-- C5: whenever parsing succeeds, a mapping that omitted `retention`,
`reliability` or `database_retention_policy` comes out with the default
`discard`, `unreliable` or `no_ttl` respectively. -/
theorem omitted_mapping_fields_default (doc : Json) (r : RawInterface)
    (i : AstarteInterface) (rl : List RawMapping) (k : Nat)
    (hd : decodeInterface doc = .ok r) (hm : r.mappings = some rl)
    (hp : parseInterface doc = .ok i)
    (hk : k < rl.length) (hk2 : k < i.Mappings.length) :
    ((rl.get ⟨k, hk⟩).retention = none →
       (i.Mappings.get ⟨k, hk2⟩).Retention = .discard) ∧
    ((rl.get ⟨k, hk⟩).reliability = none →
       (i.Mappings.get ⟨k, hk2⟩).Reliability = .unreliable) ∧
    ((rl.get ⟨k, hk⟩).databaseRetentionPolicy = none →
       (i.Mappings.get ⟨k, hk2⟩).DatabaseRetentionPolicy = .noTtl) := by
  obtain ⟨_, _, _, _, ⟨rl2, hrl2, _, hms⟩, _⟩ :=
    validate_ok_inv (parseInterface_ok_inv hd hp)
  rw [hm] at hrl2
  injection hrl2 with hh
  subst hh
  obtain ⟨hlen, hget⟩ := validateMappings_ok_get hms
  have hinv := validateMapping_ok_inv (hget k hk hk2)
  exact ⟨hinv.2.2.1, hinv.2.2.2.1, hinv.2.2.2.2⟩

/-- C5 witness: in the valid `TestParsing` document the second mapping
omits all three defaultable fields, and the parsed result carries
`discard`, `unreliable` and `no_ttl` for it. -/
theorem omitted_mapping_fields_default_witness :
    (raw01MapsEx.get ⟨1, by decide⟩).retention = none ∧
    (parsed01Ex.Mappings.get ⟨1, by decide⟩).Retention = .discard ∧
    (parsed01Ex.Mappings.get ⟨1, by decide⟩).Reliability = .unreliable ∧
    (parsed01Ex.Mappings.get ⟨1, by decide⟩).DatabaseRetentionPolicy = .noTtl := by
  have h := omitted_mapping_fields_default doc01Ex raw01Ex parsed01Ex
    raw01MapsEx 1 (by decide) rfl (by decide) (by decide) (by decide)
  exact ⟨rfl, h.1 rfl, h.2.1 rfl, h.2.2 rfl⟩

/-- C6: a document that declares no `aggregation` marker and parses
successfully yields an interface whose aggregation is `individual`. -/
theorem no_marker_defaults_individual (doc : Json) (r : RawInterface)
    (i : AstarteInterface) (hd : decodeInterface doc = .ok r)
    (ha : r.aggregation = none) (hp : parseInterface doc = .ok i) :
    i.Aggregation = .individual := by
  obtain ⟨_, _, _, _, _, hagg⟩ := validate_ok_inv (parseInterface_ok_inv hd hp)
  rw [ha] at hagg
  simp only [validateEnumDefault, Except.ok.injEq] at hagg
  exact hagg.symm

/-- C6 witness: the valid `TestParsing` document has no `aggregation`
field and parses to an `individual` interface. -/
theorem no_marker_defaults_individual_witness :
    raw01Ex.aggregation = none ∧ parsed01Ex.Aggregation = .individual :=
  ⟨rfl,
   no_marker_defaults_individual doc01Ex raw01Ex parsed01Ex (by decide) rfl
     (by decide)⟩

theorem getStringField_error_inv {fs : List (String × Json)} {k : String}
    {e : InterfaceError} (h : getStringField fs k = .error e) :
    e = .typeMismatchError k ∧ ∃ v, fs.lookup k = some v ∧ v.isStr = false := by
  unfold getStringField at h
  cases hl : fs.lookup k with
  | none => simp [hl] at h
  | some v =>
    simp only [hl] at h
    cases v with
    | str s => simp at h
    | null =>
      simp only [Except.error.injEq] at h
      exact ⟨h.symm, Json.null, rfl, rfl⟩
    | bool b =>
      simp only [Except.error.injEq] at h
      exact ⟨h.symm, Json.bool b, rfl, rfl⟩
    | num n =>
      simp only [Except.error.injEq] at h
      exact ⟨h.symm, Json.num n, rfl, rfl⟩
    | arr xs =>
      simp only [Except.error.injEq] at h
      exact ⟨h.symm, Json.arr xs, rfl, rfl⟩
    | obj fl =>
      simp only [Except.error.injEq] at h
      exact ⟨h.symm, Json.obj fl, rfl, rfl⟩

theorem getIntField_error_inv {fs : List (String × Json)} {k : String}
    {e : InterfaceError} (h : getIntField fs k = .error e) :
    e = .typeMismatchError k ∧ ∃ v, fs.lookup k = some v ∧ v.isNum = false := by
  unfold getIntField at h
  cases hl : fs.lookup k with
  | none => simp [hl] at h
  | some v =>
    simp only [hl] at h
    cases v with
    | num n => simp at h
    | null =>
      simp only [Except.error.injEq] at h
      exact ⟨h.symm, Json.null, rfl, rfl⟩
    | bool b =>
      simp only [Except.error.injEq] at h
      exact ⟨h.symm, Json.bool b, rfl, rfl⟩
    | str s =>
      simp only [Except.error.injEq] at h
      exact ⟨h.symm, Json.str s, rfl, rfl⟩
    | arr xs =>
      simp only [Except.error.injEq] at h
      exact ⟨h.symm, Json.arr xs, rfl, rfl⟩
    | obj fl =>
      simp only [Except.error.injEq] at h
      exact ⟨h.symm, Json.obj fl, rfl, rfl⟩

theorem getStringField_ok_str {fs : List (String × Json)} {k : String}
    {o : Option String} {v : Json} (ho : getStringField fs k = .ok o)
    (hv : fs.lookup k = some v) : v.isStr = true := by
  unfold getStringField at ho
  simp only [hv] at ho
  cases v <;> first | rfl | simp at ho

theorem getIntField_ok_num {fs : List (String × Json)} {k : String}
    {o : Option Int} {v : Json} (ho : getIntField fs k = .ok o)
    (hv : fs.lookup k = some v) : v.isNum = true := by
  unfold getIntField at ho
  simp only [hv] at ho
  cases v <;> first | rfl | simp at ho

/-- C7: a document carrying a top-level field whose JSON type disagrees
with the expected semantic type (a string where a number belongs, or
the reverse) is rejected with a `TypeMismatchError` identifying a
mismatched field. -/
theorem type_mismatch_rejected (fs : List (String × Json)) (k : String)
    (h : scalarMismatch fs k = true) :
    ∃ f, parseInterface (Json.obj fs) = .error (.typeMismatchError f) ∧
      scalarMismatch fs f = true := by
  cases h1 : getStringField fs "interface_name" with
  | error e =>
    obtain ⟨he, v, hv, hvs⟩ := getStringField_error_inv h1
    refine ⟨"interface_name", ?_, ?_⟩
    · unfold parseInterface decodeInterface
      simp only [h1, he]
    · simp [scalarMismatch, hv, scalarKeyIsString, scalarKeyIsInt, hvs]
  | ok o1 =>
  cases h2 : getIntField fs "version_major" with
  | error e =>
    obtain ⟨he, v, hv, hvn⟩ := getIntField_error_inv h2
    refine ⟨"version_major", ?_, ?_⟩
    · unfold parseInterface decodeInterface
      simp only [h1, h2, he]
    · simp [scalarMismatch, hv, scalarKeyIsString, scalarKeyIsInt, hvn]
  | ok o2 =>
  cases h3 : getIntField fs "version_minor" with
  | error e =>
    obtain ⟨he, v, hv, hvn⟩ := getIntField_error_inv h3
    refine ⟨"version_minor", ?_, ?_⟩
    · unfold parseInterface decodeInterface
      simp only [h1, h2, h3, he]
    · simp [scalarMismatch, hv, scalarKeyIsString, scalarKeyIsInt, hvn]
  | ok o3 =>
  cases h4 : getStringField fs "type" with
  | error e =>
    obtain ⟨he, v, hv, hvs⟩ := getStringField_error_inv h4
    refine ⟨"type", ?_, ?_⟩
    · unfold parseInterface decodeInterface
      simp only [h1, h2, h3, h4, he]
    · simp [scalarMismatch, hv, scalarKeyIsString, scalarKeyIsInt, hvs]
  | ok o4 =>
  cases h5 : getStringField fs "ownership" with
  | error e =>
    obtain ⟨he, v, hv, hvs⟩ := getStringField_error_inv h5
    refine ⟨"ownership", ?_, ?_⟩
    · unfold parseInterface decodeInterface
      simp only [h1, h2, h3, h4, h5, he]
    · simp [scalarMismatch, hv, scalarKeyIsString, scalarKeyIsInt, hvs]
  | ok o5 =>
  cases h6 : getStringField fs "aggregation" with
  | error e =>
    obtain ⟨he, v, hv, hvs⟩ := getStringField_error_inv h6
    refine ⟨"aggregation", ?_, ?_⟩
    · unfold parseInterface decodeInterface
      simp only [h1, h2, h3, h4, h5, h6, he]
    · simp [scalarMismatch, hv, scalarKeyIsString, scalarKeyIsInt, hvs]
  | ok o6 =>
  cases h7 : getStringField fs "description" with
  | error e =>
    obtain ⟨he, v, hv, hvs⟩ := getStringField_error_inv h7
    refine ⟨"description", ?_, ?_⟩
    · unfold parseInterface decodeInterface
      simp only [h1, h2, h3, h4, h5, h6, h7, he]
    · simp [scalarMismatch, hv, scalarKeyIsString, scalarKeyIsInt, hvs]
  | ok o7 =>
  cases h8 : getStringField fs "doc" with
  | error e =>
    obtain ⟨he, v, hv, hvs⟩ := getStringField_error_inv h8
    refine ⟨"doc", ?_, ?_⟩
    · unfold parseInterface decodeInterface
      simp only [h1, h2, h3, h4, h5, h6, h7, h8, he]
    · simp [scalarMismatch, hv, scalarKeyIsString, scalarKeyIsInt, hvs]
  | ok o8 =>
    exfalso
    unfold scalarMismatch at h
    cases hlk : fs.lookup k with
    | none => simp [hlk] at h
    | some v =>
      simp only [hlk] at h
      rw [Bool.or_eq_true, Bool.and_eq_true, Bool.and_eq_true] at h
      rcases h with ⟨hks, hvs⟩ | ⟨hki, hvn⟩
      · have hvs' : v.isStr = false := by simpa using hvs
        have hk6 : k = "interface_name" ∨ k = "type" ∨ k = "ownership" ∨
            k = "aggregation" ∨ k = "description" ∨ k = "doc" := by
          simpa [scalarKeyIsString, Bool.or_eq_true, or_assoc] using hks
        rcases hk6 with rfl | rfl | rfl | rfl | rfl | rfl
        · rw [getStringField_ok_str h1 hlk] at hvs'
          exact Bool.noConfusion hvs'
        · rw [getStringField_ok_str h4 hlk] at hvs'
          exact Bool.noConfusion hvs'
        · rw [getStringField_ok_str h5 hlk] at hvs'
          exact Bool.noConfusion hvs'
        · rw [getStringField_ok_str h6 hlk] at hvs'
          exact Bool.noConfusion hvs'
        · rw [getStringField_ok_str h7 hlk] at hvs'
          exact Bool.noConfusion hvs'
        · rw [getStringField_ok_str h8 hlk] at hvs'
          exact Bool.noConfusion hvs'
      · have hvn' : v.isNum = false := by simpa using hvn
        have hk2 : k = "version_major" ∨ k = "version_minor" := by
          simpa [scalarKeyIsInt, Bool.or_eq_true] using hki
        rcases hk2 with rfl | rfl
        · rw [getIntField_ok_num h2 hlk] at hvn'
          exact Bool.noConfusion hvn'
        · rw [getIntField_ok_num h3 hlk] at hvn'
          exact Bool.noConfusion hvn'

/-- C7 witness: the document of the source test
`TestFailedMarshalingParsing` — `version_minor` a string, `type` and
`ownership` numbers — is rejected with a `TypeMismatchError`
identifying a mismatched field. -/
theorem type_mismatch_rejected_witness :
    scalarMismatch fsTypeMismatchEx "version_minor" = true ∧
    ∃ f, parseInterface (Json.obj fsTypeMismatchEx) =
        .error (.typeMismatchError f) ∧
      scalarMismatch fsTypeMismatchEx f = true :=
  ⟨by decide, type_mismatch_rejected fsTypeMismatchEx "version_minor" (by decide)⟩

end Interfaces

namespace ClientApi

/-- C8: any quoted JSON string outside the two recognized tokens
unmarshals without error and silently becomes the zero variant
`SimpleStrategy`. -/
theorem replication_class_unrecognized_silent (s : String)
    (h1 : s ≠ "SimpleStrategy") (h2 : s ≠ "NetworkTopologyStrategy") :
    ReplicationClass.unmarshalJSON (Json.str s) = .ok .SimpleStrategy := by
  have hb1 : (s == "SimpleStrategy") = false := beq_eq_false_iff_ne.mpr h1
  have hb2 : (s == "NetworkTopologyStrategy") = false := beq_eq_false_iff_ne.mpr h2
  simp [ReplicationClass.unmarshalJSON, toID, List.lookup, hb1, hb2]

/-- C8 witness: the unrecognized token `FooStrategy` silently unmarshals
to `SimpleStrategy`. -/
theorem replication_class_unrecognized_silent_witness :
    "FooStrategy" ≠ "SimpleStrategy" ∧
    "FooStrategy" ≠ "NetworkTopologyStrategy" ∧
    ReplicationClass.unmarshalJSON (Json.str "FooStrategy") =
      .ok .SimpleStrategy :=
  ⟨by decide, by decide,
   replication_class_unrecognized_silent "FooStrategy" (by decide) (by decide)⟩

theorem omapGet_omapDelete (j : List (String × Json)) (k : String) :
    omapGet (omapDelete j k) k = none := by
  induction j with
  | nil => rfl
  | cons a rest ih =>
    unfold omapGet omapDelete at ih ⊢
    rw [List.filter_cons]
    by_cases hka : a.1 = k
    · rw [if_neg (by simp [hka])]
      exact ih
    · rw [if_pos (by simpa [bne] using hka)]
      have h2 : (k == a.1) = false := beq_eq_false_iff_ne.mpr (fun hc => hka hc.symm)
      simp only [List.lookup, h2]
      exact ih

/-- C9: whenever `DatastreamAggregateValue.UnmarshalJSON` accepts a
decoded object, the resulting `Values` map never contains the key
`timestamp` — it is exactly the input map with that key removed — and a
string `timestamp` entry is parsed as RFC3339Nano into the `Timestamp`
field, an unparseable timestamp string failing the whole call. -/
theorem aggregate_unmarshal_props (j : List (String × Json)) :
    (∀ v, DatastreamAggregateValue.unmarshalJSON j = .ok v →
       omapGet v.Values "timestamp" = none ∧
       v.Values = omapDelete j "timestamp" ∧
       (∀ s, omapGet j "timestamp" = some (Json.str s) →
          parseRFC3339Nano s = .ok v.Timestamp)) ∧
    (∀ s e, omapGet j "timestamp" = some (Json.str s) →
       parseRFC3339Nano s = .error e →
       DatastreamAggregateValue.unmarshalJSON j = .error e) := by
  constructor
  · intro v hv
    unfold DatastreamAggregateValue.unmarshalJSON at hv
    split at hv
    · rename_i s0 heq
      cases hpt : parseRFC3339Nano s0 with
      | error e => simp [hpt] at hv
      | ok t =>
        simp only [hpt, Except.ok.injEq] at hv
        subst hv
        refine ⟨omapGet_omapDelete j "timestamp", rfl, ?_⟩
        intro s hs
        rw [heq] at hs
        injection hs with hs2
        injection hs2 with hs3
        rw [← hs3]
        exact hpt
    · rename_i hne
      simp only [Except.ok.injEq] at hv
      subst hv
      refine ⟨omapGet_omapDelete j "timestamp", rfl, ?_⟩
      intro s hs
      exact absurd hs (by intro hc; exact hne s hc)
  · intro s e hts hpe
    unfold DatastreamAggregateValue.unmarshalJSON
    simp only [hts, hpe]

/-- C9 witness: a concrete aggregate object with an RFC 3339 timestamp
and one value unmarshals with the timestamp lifted out of the map. -/
theorem aggregate_unmarshal_props_witness :
    DatastreamAggregateValue.unmarshalJSON aggEx = .ok aggExVal ∧
    omapGet aggExVal.Values "timestamp" = none ∧
    aggExVal.Values = omapDelete aggEx "timestamp" ∧
    parseRFC3339Nano "2020-01-02T03:04:05Z" = .ok aggExVal.Timestamp := by
  have hok : DatastreamAggregateValue.unmarshalJSON aggEx = .ok aggExVal := rfl
  have h := (aggregate_unmarshal_props aggEx).1 aggExVal hok
  exact ⟨hok, h.1, h.2.1, h.2.2 "2020-01-02T03:04:05Z" rfl⟩

/-- C10: for every realm, `Client.ListTriggerDeliveryPolicies` returns a
`ListTriggersRequest` value rather than a
`ListTriggerDeliveryPoliciesRequest`, so running the returned request
on a 200 response yields a `ListTriggersResponse` and can never yield a
`ListTriggerDeliveryPoliciesResponse`. -/
theorem listTriggerDeliveryPolicies_returns_triggers_request
    (c : Client) (realm : String) :
    (∃ req, Client.ListTriggerDeliveryPolicies c realm =
       AstarteRequest.listTriggersRequest req 200) ∧
    (∀ res : HTTPResponse, res.statusCode = 200 →
       (Client.ListTriggerDeliveryPolicies c realm).run res =
         .ok (.listTriggersResponse res)) ∧
    (∀ res res2, (Client.ListTriggerDeliveryPolicies c realm).run res ≠
       .ok (.listTriggerDeliveryPoliciesResponse res2)) := by
  refine ⟨⟨_, rfl⟩, ?_, ?_⟩
  · intro res h
    simp [Client.ListTriggerDeliveryPolicies, AstarteRequest.run, h]
  · intro res res2 hcon
    simp only [Client.ListTriggerDeliveryPolicies, AstarteRequest.run] at hcon
    by_cases h2 : res.statusCode = 200
    · simp [h2] at hcon
    · simp [h2] at hcon

/-- C10 witness: at a concrete client, realm and 200 response, the
request built by `ListTriggerDeliveryPolicies` runs to a
`ListTriggersResponse`. -/
theorem listTriggerDeliveryPolicies_returns_triggers_request_witness :
    (⟨200, ""⟩ : HTTPResponse).statusCode = 200 ∧
    (Client.ListTriggerDeliveryPolicies ⟨"http://api.example.com"⟩ "test").run
        ⟨200, ""⟩ = .ok (.listTriggersResponse ⟨200, ""⟩) :=
  ⟨rfl,
   (listTriggerDeliveryPolicies_returns_triggers_request
      ⟨"http://api.example.com"⟩ "test").2.1 ⟨200, ""⟩ rfl⟩

end ClientApi
